import Mathlib

/-!
Shallow embedding of the price normalization and aggregation pipeline of
`src/app_gemini.py` (the search button handler, the exchange-rate table
provider `get_exchange_rates`, and the per-country minimum dashboard).
Python floats are modelled as rationals (ℚ); JSON dictionaries with
possibly missing keys are modelled with `Option` fields; the rate table,
a Python dict with a fixed insertion order, is modelled as an association
list queried with `List.lookup`.
-/

set_option autoImplicit false

namespace DimpleMart

/-- Model of the `price` sub-dictionary of a raw eBay item: `value` and
`currency` keys, each possibly absent (`price_info.get("value", 0)` and
`price_info.get("currency", "USD")` in the source). -/
structure PriceInfo where
  value : Option ℚ
  currency : Option String
  deriving DecidableEq

/-- Model of one entry of `shippingOptions`. The source reads
`first_opt.get("shippingCost", {}).get("value", 0)`; a missing
`shippingCost` dictionary and a missing `value` key both fall through to
the default 0, so the two layers are collapsed into one `Option`. -/
structure ShippingOption where
  shippingCost : Option ℚ
  deriving DecidableEq

/-- Model of one raw item record returned by the marketplace search.
Fields the normalization loop reads, each possibly absent. -/
structure RawItem where
  title : Option String
  itemWebUrl : Option String
  url : Option String
  price : Option PriceInfo
  shippingOptions : List ShippingOption
  soldDate : Option String
  itemEndDate : Option String
  deriving DecidableEq

/-- Search mode: `mode_key` is `"Active"` or `"Sold"` in the source. -/
inductive Mode where
  | Active
  | Sold
  deriving DecidableEq

/-- Static default exchange-rate table of `get_exchange_rates`
(`rates = {"USD": 1.0, "JPY": 150.0, "GBP": 0.79, "EUR": 0.92,
"AUD": 1.52, "CAD": 1.35}`), in dict insertion order. -/
def defaultRates : List (String × ℚ) :=
  [("USD", 1), ("JPY", 150), ("GBP", 79/100), ("EUR", 92/100),
   ("AUD", 152/100), ("CAD", 135/100)]

/-- Model of `get_exchange_rates`. The live fetch outcome is the
parameter: `none` models any failure (exception or non-200 status, the
`except: pass` path), `some data` models a 200 response whose `rates`
object is `data`. On success the source iterates over the keys of the
default table and overwrites each key that occurs in `data`
(`for cur in rates.keys(): if cur in data: rates[cur] = data[cur]`). -/
def get_exchange_rates (fetch : Option (List (String × ℚ))) : List (String × ℚ) :=
  match fetch with
  | none => defaultRates
  | some data => defaultRates.map (fun p => (p.1, (data.lookup p.1).getD p.2))

/-- Extracted item price: `item_price = float(price_info.get("value", 0))`
where `price_info = item.get("price", {})`. -/
def itemPriceOf (it : RawItem) : ℚ :=
  match it.price with
  | none => 0
  | some pi => pi.value.getD 0

/-- Extracted currency: `currency = price_info.get("currency", "USD")`. -/
def currencyOf (it : RawItem) : String :=
  match it.price with
  | none => "USD"
  | some pi => pi.currency.getD "USD"

/-- Extracted shipping cost: 0 when `shippingOptions` is empty, else the
`shippingCost.value` of the first option, defaulting to 0. -/
def shippingOf (it : RawItem) : ℚ :=
  match it.shippingOptions with
  | [] => 0
  | o :: _ => o.shippingCost.getD 0

/-- Extracted link: `url = item.get("itemWebUrl", item.get("url"))`. -/
def linkOf (it : RawItem) : Option String :=
  match it.itemWebUrl with
  | some u => some u
  | none => it.url

/-- Truncation toward zero, as Python `int()` applied to a float. -/
def truncQ (q : ℚ) : ℤ :=
  if q < 0 then ⌈q⌉ else ⌊q⌋

/-- Insert a comma after every three characters of a reversed digit
string, helper for the thousands separator of Python `f"{n:,}"`. -/
def groupRev : List Char → List Char
  | a :: b :: c :: d :: rest => a :: b :: c :: ',' :: groupRev (d :: rest)
  | l => l

/-- Python `f"{n:,}"` for an integer: decimal digits grouped in threes by
commas, with a leading minus sign for negative values. -/
def commaFmt (n : ℤ) : String :=
  (if n < 0 then "-" else "") ++
    String.mk (groupRev (toString n.natAbs).toList.reverse).reverse

/-- The displayed home-currency total `f"¥{int(total_jpy):,}"`. -/
def yenFmt (q : ℚ) : String :=
  "¥" ++ commaFmt (truncQ q)

/-- Python `f"{x:.2f}"` on the rational model: the value rounded to
hundredths, printed with exactly two decimal places. Exact half-cent
ties (where binary-float formatting rounds to even) are rounded up by
`round`; no value in this development sits on such a tie. -/
def format2 (q : ℚ) : String :=
  let c := round (q * 100)
  (if c < 0 then "-" else "") ++ toString (c.natAbs / 100) ++ "." ++
    (if c.natAbs % 100 < 10 then "0" else "") ++ toString (c.natAbs % 100)

/-- One row of the result table (`data_row` in the source). Dictionary
keys 国 / 商品タイトル / トータル(円) / 詳細(現地通貨) / リンク /
sort_price / 販売日 become `country` / `title` / `totalDisplay` /
`detailText` / `link` / `sortPrice` / `dateDisplay`; the 販売日 key is
only present in Sold mode, hence an `Option`. -/
structure Row where
  country : String
  title : String
  totalDisplay : String
  detailText : String
  link : Option String
  sortPrice : ℚ
  dateDisplay : Option String
  deriving DecidableEq

/-- The sold/end date display: `item.get("soldDate") or
item.get("itemEndDate", "")`, truncated to its first 10 characters when
non-empty, else `"-"`. Python `or` treats the empty string as falsy. -/
def dateDisplayOf (it : RawItem) : String :=
  let raw :=
    match it.soldDate with
    | some s => if s = "" then it.itemEndDate.getD "" else s
    | none => it.itemEndDate.getD ""
  if raw = "" then "-" else raw.take 10

/-- Normalization of one raw item (the body of `for item in items` in
the search handler). `usd_to_jpy` models the module-level variable
`usd_to_jpy = rates["JPY"]`. -/
def normalizeItem (rates : List (String × ℚ)) (usd_to_jpy : ℚ) (mode : Mode)
    (country : String) (item : RawItem) : Row :=
  let item_price := itemPriceOf item
  let currency := currencyOf item
  let shipping_cost := shippingOf item
  let total_local := item_price + shipping_cost
  let rate_to_usd := (rates.lookup currency).getD 1
  let total_usd :=
    if currency = "USD" then total_local
    else if rate_to_usd ≠ 0 then total_local / rate_to_usd else 0
  let total_jpy := total_usd * usd_to_jpy
  { country := country
    title := item.title.getD "No Title"
    totalDisplay := yenFmt total_jpy
    detailText := format2 item_price ++ " + 送" ++ format2 shipping_cost ++ " " ++ currency
    link := linkOf item
    sortPrice := total_jpy
    dateDisplay := if mode = Mode.Sold then some (dateDisplayOf item) else none }

/-- The sentinel row appended when a country returns no items in Sold
mode. Its dictionary carries no 販売日 key, hence `dateDisplay = none`. -/
def sentinelRow (c : String) : Row :=
  { country := c
    title := "⚠️ 販売実績なし"
    totalDisplay := "-"
    detailText := "-"
    link := some "#"
    sortPrice := 99999999
    dateDisplay := none }

/-- Rows contributed by one country: the per-country branch of the
fan-out loop. An empty item list in Sold mode yields exactly the
sentinel row; otherwise each item is normalized in order (an empty list
in Active mode therefore yields no rows). -/
def normalizeCountry (rates : List (String × ℚ)) (u : ℚ) (mode : Mode)
    (c : String) (items : List RawItem) : List Row :=
  if items = [] ∧ mode = Mode.Sold then [sentinelRow c]
  else items.map (normalizeItem rates u mode c)

/-- The combined `all_data` list: countries processed in selection
order, each contributing its normalized rows. -/
def allRows (rates : List (String × ℚ)) (u : ℚ) (mode : Mode)
    (countries : List String) (itemsOf : String → List RawItem) : List Row :=
  countries.flatMap (fun c => normalizeCountry rates u mode c (itemsOf c))

/-- First row attaining the minimal `sortPrice`, the semantics of pandas
`Series.idxmin` followed by `loc` (idxmin returns the first index label
holding the minimum). -/
def argminFirst : List Row → Option Row
  | [] => none
  | r :: rs =>
    match argminFirst rs with
    | none => some r
    | some b => if r.sortPrice ≤ b.sortPrice then some r else some b

/-- The rows of one country that survive the dashboard validity filter:
`valid_rows = df[df["トータル(円)"] != "-"]` followed by
`country_df = valid_rows[valid_rows["国"] == country]`. -/
def validCountryRows (rows : List Row) (c : String) : List Row :=
  (rows.filter (fun r => r.totalDisplay != "-")).filter (fun r => r.country == c)

/-- The dashboard metric for one country: the display total of the first
minimal-`sortPrice` valid row, or なし (none) when the country has no
valid rows. -/
def dashEntry (rows : List Row) (c : String) : String :=
  match argminFirst (validCountryRows rows c) with
  | some b => b.totalDisplay
  | none => "なし"

/-- The Active-mode per-country minimum dashboard: one metric per
selected country, in selection order. -/
def dashboard (rows : List Row) (countries : List String) : List (String × String) :=
  countries.map (fun c => (c, dashEntry rows c))

/-- Helper: `argminFirst` returns `none` exactly on the empty list. -/
theorem argminFirst_eq_none (l : List Row) : argminFirst l = none ↔ l = [] := by
  cases l with
  | nil => simp [argminFirst]
  | cons r rs =>
    cases h : argminFirst rs <;> simp [argminFirst, h]
    split <;> simp

/-- Helper: on a nonempty list, `argminFirst` returns the first element
attaining the minimal `sortPrice`: an element at index `i` that is a
global minimum and is strictly smaller than every earlier element. -/
theorem argminFirst_spec (l : List Row) (hl : l ≠ []) :
    ∃ (i : ℕ) (hi : i < l.length), argminFirst l = some (l.get ⟨i, hi⟩)
      ∧ (∀ (j : ℕ) (hj : j < l.length),
          (l.get ⟨i, hi⟩).sortPrice ≤ (l.get ⟨j, hj⟩).sortPrice)
      ∧ (∀ (j : ℕ) (hj : j < l.length), j < i →
          (l.get ⟨i, hi⟩).sortPrice < (l.get ⟨j, hj⟩).sortPrice) := by
  induction l with
  | nil => exact absurd rfl hl
  | cons r rs ih =>
    cases hrs : argminFirst rs with
    | none =>
      have h0 : rs = [] := (argminFirst_eq_none rs).mp hrs
      subst h0
      refine ⟨0, by simp, by simp [argminFirst], ?_, ?_⟩
      · intro j hj
        have hj1 : j < 1 := by simpa using hj
        have hj0 : j = 0 := by omega
        subst hj0
        exact le_refl _
      · intro j hj hji
        exact absurd hji (Nat.not_lt_zero j)
    | some b =>
      have hrsne : rs ≠ [] := by
        intro h
        subst h
        simp [argminFirst] at hrs
      obtain ⟨i, hi, hspec, hmin, hfirst⟩ := ih hrsne
      have hb : b = rs.get ⟨i, hi⟩ := by
        rw [hrs] at hspec
        exact Option.some.inj hspec
      by_cases hle : r.sortPrice ≤ b.sortPrice
      · refine ⟨0, Nat.succ_pos _, by simp [argminFirst, hrs, hle], ?_, ?_⟩
        · intro j hj
          cases j with
          | zero => exact le_refl _
          | succ k =>
            have hk : k < rs.length := Nat.lt_of_succ_lt_succ hj
            have : b.sortPrice ≤ (rs.get ⟨k, hk⟩).sortPrice := hb ▸ hmin k hk
            exact le_trans hle this
        · intro j hj hji
          exact absurd hji (Nat.not_lt_zero j)
      · have hlt : b.sortPrice < r.sortPrice := not_le.mp hle
        refine ⟨i + 1, Nat.succ_lt_succ hi, ?_, ?_, ?_⟩
        · have : argminFirst (r :: rs) = some b := by
            simp [argminFirst, hrs, hle]
          rw [this, hb]
          rfl
        · intro j hj
          cases j with
          | zero =>
            have : (rs.get ⟨i, hi⟩).sortPrice ≤ r.sortPrice := hb ▸ le_of_lt hlt
            exact this
          | succ k =>
            have hk : k < rs.length := Nat.lt_of_succ_lt_succ hj
            exact hmin k hk
        · intro j hj hji
          cases j with
          | zero => exact hb ▸ hlt
          | succ k =>
            have hk : k < rs.length := Nat.lt_of_succ_lt_succ hj
            exact hfirst k hk (Nat.lt_of_succ_lt_succ hji)

/-- Helper: every row contributed by a country carries that country's
label in its `country` field. -/
theorem country_of_mem_normalizeCountry (rates : List (String × ℚ)) (u : ℚ)
    (mode : Mode) (c : String) (items : List RawItem) (r : Row)
    (hr : r ∈ normalizeCountry rates u mode c items) : r.country = c := by
  unfold normalizeCountry at hr
  split at hr
  · simp at hr
    subst hr
    rfl
  · simp only [List.mem_map] at hr
    obtain ⟨it, _, hit⟩ := hr
    subst hit
    rfl

/-- Helper: in Active mode a country contributes exactly the images of
its items under `normalizeItem` (the sentinel branch is Sold-only). -/
theorem normalizeCountry_active (rates : List (String × ℚ)) (u : ℚ)
    (c : String) (items : List RawItem) :
    normalizeCountry rates u Mode.Active c items
      = items.map (normalizeItem rates u Mode.Active c) := by
  unfold normalizeCountry
  simp

/-- Helper: decomposition of membership in the Active-mode combined row
list: every row is the normalization of some item of some selected
country. -/
theorem mem_allRows_active (rates : List (String × ℚ)) (u : ℚ)
    (countries : List String) (itemsOf : String → List RawItem) (r : Row)
    (hr : r ∈ allRows rates u Mode.Active countries itemsOf) :
    ∃ c it, c ∈ countries ∧ it ∈ itemsOf c
      ∧ r = normalizeItem rates u Mode.Active c it := by
  unfold allRows at hr
  simp only [List.mem_flatMap] at hr
  obtain ⟨c, hc, hrc⟩ := hr
  rw [normalizeCountry_active] at hrc
  simp only [List.mem_map] at hrc
  obtain ⟨it, hit, hr⟩ := hrc
  exact ⟨c, it, hc, hit, hr.symm⟩

/-- Helper: the displayed total of every normalized item row is the yen
rendering of its own sort key. -/
theorem totalDisplay_eq_yenFmt (rates : List (String × ℚ)) (u : ℚ)
    (mode : Mode) (c : String) (it : RawItem) :
    (normalizeItem rates u mode c it).totalDisplay
      = yenFmt (normalizeItem rates u mode c it).sortPrice := rfl

/-- Concrete item: 100 GBP plus 10 GBP shipping. -/
def itemGBP : RawItem :=
  { title := some "camera", itemWebUrl := some "https://example.test/1", url := none,
    price := some { value := some 100, currency := some "GBP" },
    shippingOptions := [{ shippingCost := some 10 }],
    soldDate := none, itemEndDate := none }

/-- Concrete item: 5000 JPY plus 500 JPY shipping. -/
def itemJPY : RawItem :=
  { title := some "lens", itemWebUrl := some "https://example.test/2", url := none,
    price := some { value := some 5000, currency := some "JPY" },
    shippingOptions := [{ shippingCost := some 500 }],
    soldDate := none, itemEndDate := none }

/-- Concrete item: 20 CHF plus 5 CHF shipping, a currency code outside
the rate table. -/
def itemCHF : RawItem :=
  { title := some "watch", itemWebUrl := some "https://example.test/3", url := none,
    price := some { value := some 20, currency := some "CHF" },
    shippingOptions := [{ shippingCost := some 5 }],
    soldDate := none, itemEndDate := none }

/-- Concrete item: 100 USD plus 10 USD shipping. -/
def itemUSD : RawItem :=
  { title := some "console", itemWebUrl := some "https://example.test/4", url := none,
    price := some { value := some 100, currency := some "USD" },
    shippingOptions := [{ shippingCost := some 10 }],
    soldDate := none, itemEndDate := none }

/-- Concrete item priced at one billion USD, free shipping. -/
def itemBig : RawItem :=
  { title := some "yacht", itemWebUrl := some "https://example.test/5", url := none,
    price := some { value := some 1000000000, currency := some "USD" },
    shippingOptions := [], soldDate := none, itemEndDate := none }

/-- Rate table variant carrying an explicit zero rate for GBP. -/
def zeroRates : List (String × ℚ) :=
  [("USD", 1), ("JPY", 150), ("GBP", 0)]

/-- C1: for a raw item with extracted price `p`, shipping `s` and
non-USD currency `cur` whose table rate is `r ≠ 0`, with the home rate
`u = rateTable["JPY"]`, the computed home-currency sort key is
`((p + s) / r) * u`. -/
theorem nonusd_total_formula (rates : List (String × ℚ)) (u : ℚ) (mode : Mode)
    (c : String) (it : RawItem) (p s r : ℚ) (cur : String)
    (hp : itemPriceOf it = p) (hs : shippingOf it = s) (hc : currencyOf it = cur)
    (hcu : cur ≠ "USD") (hr : rates.lookup cur = some r) (hrz : r ≠ 0)
    (hu : rates.lookup "JPY" = some u) :
    (normalizeItem rates u mode c it).sortPrice = ((p + s) / r) * u := by
  simp [normalizeItem, hp, hs, hc, hcu, hr, hrz]

/-- C1 witness: CUR=GBP, p=100, s=10, r=0.79, home=JPY, rate[JPY]=150
give `(110 / 0.79) * 150 = 1650000/79 ≈ 20886.08`. -/
theorem nonusd_total_formula_witness :
    (normalizeItem defaultRates 150 Mode.Active "🇬🇧 イギリス" itemGBP).sortPrice
      = ((100 + 10) / (79/100)) * 150
    ∧ (((100 : ℚ) + 10) / (79/100)) * 150 = 1650000/79 := by
  refine ⟨?_, by norm_num⟩
  exact nonusd_total_formula defaultRates 150 Mode.Active "🇬🇧 イギリス" itemGBP
    100 10 (79/100) "GBP" (by rfl) (by rfl) (by rfl) (by decide) (by rfl)
    (by norm_num) (by rfl)

/-- C2 counterexample: the sentinel sort key 99999999 is not strictly
greater than the sort key of every row built from a real item; a
billion-dollar USD listing converts to 1.5e11 yen and sorts after the
sentinel. -/
theorem sold_sentinel_cex :
    ¬ ((sentinelRow "🇺🇸 アメリカ").sortPrice
        > (normalizeItem defaultRates 150 Mode.Sold "🇺🇸 アメリカ" itemBig).sortPrice) := by
  norm_num [sentinelRow, normalizeItem, itemPriceOf, currencyOf, shippingOf, itemBig]

/-- C2 amended: Sold mode with no items yields exactly one sentinel row
with sort key 99999999, total display and breakdown both `-`, and the
placeholder link `#`; the sentinel sorts after every real-item row whose
converted total stays below 99999999. -/
theorem sold_empty_sentinel (rates : List (String × ℚ)) (u : ℚ) (c : String) :
    normalizeCountry rates u Mode.Sold c [] = [sentinelRow c]
    ∧ (sentinelRow c).sortPrice = 99999999
    ∧ (sentinelRow c).totalDisplay = "-"
    ∧ (sentinelRow c).detailText = "-"
    ∧ (sentinelRow c).link = some "#"
    ∧ ∀ (rates2 : List (String × ℚ)) (u2 : ℚ) (mode : Mode) (c2 : String) (it : RawItem),
        (normalizeItem rates2 u2 mode c2 it).sortPrice < 99999999 →
        (normalizeItem rates2 u2 mode c2 it).sortPrice < (sentinelRow c).sortPrice := by
  refine ⟨by simp [normalizeCountry], rfl, rfl, rfl, rfl, ?_⟩
  intro rates2 u2 mode c2 it h
  exact h

/-- C2 witness: a concrete country with the empty Sold result produces
the sentinel row, and a cheap real row sorts before it. -/
theorem sold_empty_sentinel_witness :
    normalizeCountry defaultRates 150 Mode.Sold "🇫🇷 フランス" [] = [sentinelRow "🇫🇷 フランス"]
    ∧ (normalizeItem defaultRates 150 Mode.Sold "🇫🇷 フランス" itemUSD).sortPrice
        < (sentinelRow "🇫🇷 フランス").sortPrice := by
  obtain ⟨h1, -, -, -, -, h6⟩ := sold_empty_sentinel defaultRates 150 "🇫🇷 フランス"
  refine ⟨h1, h6 defaultRates 150 Mode.Sold "🇫🇷 フランス" itemUSD ?_⟩
  norm_num [normalizeItem, itemPriceOf, currencyOf, shippingOf, itemUSD]

/-- C4: an item denominated in the home currency (JPY) converts back to
exactly its local total: division by the JPY rate and multiplication by
the same rate cancel in the rational model. The rate is nonzero by the
data-model invariant that all table rates are positive. -/
theorem home_currency_total (rates : List (String × ℚ)) (u : ℚ) (mode : Mode)
    (c : String) (it : RawItem)
    (hc : currencyOf it = "JPY") (hu : rates.lookup "JPY" = some u) (hu0 : u ≠ 0) :
    (normalizeItem rates u mode c it).sortPrice = itemPriceOf it + shippingOf it := by
  have hne : ("JPY" : String) ≠ "USD" := by decide
  simp [normalizeItem, hc, hne, hu, hu0]

/-- C4 witness: the 5000+500 JPY item keeps sort key 5500 under the
default table. -/
theorem home_currency_total_witness :
    (normalizeItem defaultRates 150 Mode.Sold "🇩🇪 ドイツ" itemJPY).sortPrice
      = itemPriceOf itemJPY + shippingOf itemJPY
    ∧ itemPriceOf itemJPY + shippingOf itemJPY = 5500 := by
  refine ⟨?_, by norm_num [itemPriceOf, shippingOf, itemJPY]⟩
  exact home_currency_total defaultRates 150 Mode.Sold "🇩🇪 ドイツ" itemJPY
    (by rfl) (by rfl) (by norm_num)

/-- C5: an item whose currency code is not a key of the rate table gets
the lenient default rate 1.0, so its sort key is the local total times
the home rate; the conversion is total and never divides by zero. -/
theorem unknown_currency_default (rates : List (String × ℚ)) (u : ℚ) (mode : Mode)
    (c : String) (it : RawItem)
    (hr : rates.lookup (currencyOf it) = none) :
    (normalizeItem rates u mode c it).sortPrice
      = (itemPriceOf it + shippingOf it) * u := by
  by_cases hc : currencyOf it = "USD"
  · simp [normalizeItem, hc]
  · simp [normalizeItem, hc, hr]

/-- C5 witness: the CHF item (unknown code) is treated as USD-equivalent
and converts to 25 * 150 = 3750. -/
theorem unknown_currency_default_witness :
    (normalizeItem defaultRates 150 Mode.Active "🇺🇸 アメリカ" itemCHF).sortPrice
      = (itemPriceOf itemCHF + shippingOf itemCHF) * 150
    ∧ (itemPriceOf itemCHF + shippingOf itemCHF) * (150 : ℚ) = 3750 := by
  refine ⟨?_, by norm_num [itemPriceOf, shippingOf, itemCHF]⟩
  exact unknown_currency_default defaultRates 150 Mode.Active "🇺🇸 アメリカ" itemCHF (by rfl)

/-- C6 counterexample: a missing rate does not give a resulting total of
0; the CHF item (rate absent from the table) gets the default rate 1.0
and a nonzero total of 3750 yen. -/
theorem missing_rate_cex :
    (normalizeItem defaultRates 150 Mode.Active "🇺🇸 アメリカ" itemCHF).sortPrice ≠ 0 := by
  have h : List.lookup "CHF" defaultRates = none := by rfl
  have hc : ("CHF" : String) ≠ "USD" := by decide
  norm_num [normalizeItem, itemPriceOf, currencyOf, shippingOf, itemCHF, h, hc]

/-- C6 amended: only an explicit zero rate is treated as "no conversion
possible" and yields a total of 0 without dividing by zero; a missing
rate instead falls back to the lenient default 1.0, giving the local
total times the home rate. -/
theorem zero_rate_total_zero (rates : List (String × ℚ)) (u : ℚ) (mode : Mode)
    (c : String) (it : RawItem) (hcu : currencyOf it ≠ "USD") :
    (rates.lookup (currencyOf it) = some 0 →
      (normalizeItem rates u mode c it).sortPrice = 0)
    ∧ (rates.lookup (currencyOf it) = none →
      (normalizeItem rates u mode c it).sortPrice
        = (itemPriceOf it + shippingOf it) * u) := by
  constructor
  · intro hr
    simp [normalizeItem, hcu, hr]
  · intro hr
    simp [normalizeItem, hcu, hr]

/-- C6 witness: under a table holding GBP at rate 0, the GBP item's
total collapses to 0. -/
theorem zero_rate_total_zero_witness :
    (normalizeItem zeroRates 150 Mode.Active "🇬🇧 イギリス" itemGBP).sortPrice = 0 :=
  (zero_rate_total_zero zeroRates 150 Mode.Active "🇬🇧 イギリス" itemGBP
    (by decide)).1 (by rfl)

/-- C7 counterexample: the table does not always map USD to exactly 1.0;
a live response carrying a USD key overwrites the default, so a response
with USD=2 leaves the table mapping USD to 2. -/
theorem usd_overwrite_cex :
    (get_exchange_rates (some [("USD", 2)])).lookup "USD" ≠ some 1 := by
  have h : (get_exchange_rates (some [("USD", 2)])).lookup "USD" = some 2 := by rfl
  rw [h]
  intro hcontra
  have : (2 : ℚ) = 1 := Option.some.inj hcontra
  norm_num at this

/-- C7 amended: a fetch failure leaves the default table (with USD=1.0)
untouched; a successful fetch overwrites exactly the six fixed keys,
taking each value from the live response when the key is present there
and keeping the default otherwise (unknown response keys are ignored);
hence USD stays 1.0 whenever the response lacks a USD entry, but a
response USD entry does overwrite it. -/
theorem rate_table_lifecycle :
    get_exchange_rates none = defaultRates
    ∧ (∀ data : List (String × ℚ), get_exchange_rates (some data) =
        [("USD", (data.lookup "USD").getD 1), ("JPY", (data.lookup "JPY").getD 150),
         ("GBP", (data.lookup "GBP").getD (79/100)), ("EUR", (data.lookup "EUR").getD (92/100)),
         ("AUD", (data.lookup "AUD").getD (152/100)), ("CAD", (data.lookup "CAD").getD (135/100))])
    ∧ (∀ data : List (String × ℚ), data.lookup "USD" = none →
        (get_exchange_rates (some data)).lookup "USD" = some 1)
    ∧ (get_exchange_rates none).lookup "USD" = some 1 := by
  refine ⟨rfl, fun data => rfl, ?_, by rfl⟩
  intro data h
  simp [get_exchange_rates, defaultRates, List.lookup, h]

/-- C7 witness: a live response updating only JPY leaves USD at 1.0. -/
theorem rate_table_lifecycle_witness :
    (get_exchange_rates (some [("JPY", 155)])).lookup "USD" = some 1 :=
  rate_table_lifecycle.2.2.1 [("JPY", 155)] (by rfl)

/-- C9 counterexample: the breakdown string separator is the Japanese
glyph 送, not the word "ship"; the 100+10 USD item renders as
"100.00 + 送10.00 USD". -/
theorem detail_format_cex :
    (normalizeItem defaultRates 150 Mode.Active "🇺🇸 アメリカ" itemUSD).detailText
      ≠ "100.00 + ship 10.00 USD" := by
  norm_num [normalizeItem, itemPriceOf, shippingOf, currencyOf, itemUSD, format2]
  decide

/-- C9 amended: the breakdown string is exactly the item price rendered
with two decimals, then " + 送", then the shipping cost with two
decimals, then a space and the currency code. -/
theorem detail_format (rates : List (String × ℚ)) (u : ℚ) (mode : Mode)
    (c : String) (it : RawItem) (p s : ℚ) (cur : String)
    (hp : itemPriceOf it = p) (hs : shippingOf it = s) (hc : currencyOf it = cur) :
    (normalizeItem rates u mode c it).detailText
      = format2 p ++ " + 送" ++ format2 s ++ " " ++ cur := by
  simp [normalizeItem, hp, hs, hc]

/-- C9 witness: the 100+10 USD item renders as "100.00 + 送10.00 USD". -/
theorem detail_format_witness :
    (normalizeItem defaultRates 150 Mode.Active "🇺🇸 アメリカ" itemUSD).detailText
      = format2 100 ++ " + 送" ++ format2 10 ++ " " ++ "USD"
    ∧ format2 100 ++ " + 送" ++ format2 10 ++ " " ++ "USD" = "100.00 + 送10.00 USD" := by
  refine ⟨?_, by norm_num [format2]; rfl⟩
  exact detail_format defaultRates 150 Mode.Active "🇺🇸 アメリカ" itemUSD
    100 10 "USD" (by rfl) (by rfl) (by rfl)

/-- C3: when a country has at least one valid row (display total not
`-`), the dashboard exposes the display total of the first row attaining
the minimal sort key among that country's valid rows: the chosen row is
a global minimum and strictly beats every earlier valid row, so equal
sort keys resolve to the first-encountered row in input order. -/
theorem dashboard_first_min (rows : List Row) (c : String)
    (h : ∃ r, r ∈ rows ∧ r.country = c ∧ r.totalDisplay ≠ "-") :
    ∃ (i : ℕ) (hi : i < (validCountryRows rows c).length),
      dashEntry rows c = ((validCountryRows rows c).get ⟨i, hi⟩).totalDisplay
      ∧ (∀ (j : ℕ) (hj : j < (validCountryRows rows c).length),
          ((validCountryRows rows c).get ⟨i, hi⟩).sortPrice
            ≤ ((validCountryRows rows c).get ⟨j, hj⟩).sortPrice)
      ∧ (∀ (j : ℕ) (hj : j < (validCountryRows rows c).length), j < i →
          ((validCountryRows rows c).get ⟨i, hi⟩).sortPrice
            < ((validCountryRows rows c).get ⟨j, hj⟩).sortPrice) := by
  obtain ⟨r, hmem, hcountry, hdisp⟩ := h
  have hv : r ∈ validCountryRows rows c := by
    simp [validCountryRows, List.mem_filter, hmem, hcountry, hdisp]
  have hne : validCountryRows rows c ≠ [] := List.ne_nil_of_mem hv
  obtain ⟨i, hi, hspec, hmin, hfirst⟩ := argminFirst_spec _ hne
  exact ⟨i, hi, by simp [dashEntry, hspec], hmin, hfirst⟩

/-- Concrete dashboard rows: two rows of one country with equal sort
keys and distinguishable display totals. -/
def rowFirstUS : Row :=
  { country := "🇺🇸 アメリカ", title := "first", totalDisplay := "¥750",
    detailText := "5.00 + 送0.00 USD", link := some "l1", sortPrice := 750,
    dateDisplay := none }

/-- Second concrete dashboard row, tied on the sort key. -/
def rowSecondUS : Row :=
  { country := "🇺🇸 アメリカ", title := "second", totalDisplay := "¥750b",
    detailText := "5.00 + 送0.00 USD", link := some "l2", sortPrice := 750,
    dateDisplay := none }

/-- C3 witness: on two tied rows of one country the dashboard picks the
first one in input order. -/
theorem dashboard_first_min_witness :
    ∃ (i : ℕ) (hi : i < (validCountryRows [rowFirstUS, rowSecondUS] "🇺🇸 アメリカ").length),
      dashEntry [rowFirstUS, rowSecondUS] "🇺🇸 アメリカ"
        = ((validCountryRows [rowFirstUS, rowSecondUS] "🇺🇸 アメリカ").get ⟨i, hi⟩).totalDisplay
      ∧ (∀ (j : ℕ) (hj : j < (validCountryRows [rowFirstUS, rowSecondUS] "🇺🇸 アメリカ").length),
          ((validCountryRows [rowFirstUS, rowSecondUS] "🇺🇸 アメリカ").get ⟨i, hi⟩).sortPrice
            ≤ ((validCountryRows [rowFirstUS, rowSecondUS] "🇺🇸 アメリカ").get ⟨j, hj⟩).sortPrice)
      ∧ (∀ (j : ℕ) (hj : j < (validCountryRows [rowFirstUS, rowSecondUS] "🇺🇸 アメリカ").length), j < i →
          ((validCountryRows [rowFirstUS, rowSecondUS] "🇺🇸 アメリカ").get ⟨i, hi⟩).sortPrice
            < ((validCountryRows [rowFirstUS, rowSecondUS] "🇺🇸 アメリカ").get ⟨j, hj⟩).sortPrice) :=
  dashboard_first_min [rowFirstUS, rowSecondUS] "🇺🇸 アメリカ"
    ⟨rowFirstUS, by simp, by rfl, by decide⟩

/-- C8: in Active mode an empty item list contributes zero rows (no
sentinel), and such a country is marked なし ("none") in the dashboard. -/
theorem active_empty_none (rates : List (String × ℚ)) (u : ℚ)
    (countries : List String) (itemsOf : String → List RawItem) (c : String)
    (hempty : itemsOf c = []) :
    normalizeCountry rates u Mode.Active c (itemsOf c) = []
    ∧ (c ∈ countries →
        (c, "なし") ∈ dashboard (allRows rates u Mode.Active countries itemsOf) countries) := by
  have h1 : normalizeCountry rates u Mode.Active c (itemsOf c) = [] := by
    rw [hempty, normalizeCountry_active]
    rfl
  refine ⟨h1, ?_⟩
  intro hc
  have hnone : ∀ r ∈ allRows rates u Mode.Active countries itemsOf, r.country ≠ c := by
    intro r hr hrc
    obtain ⟨c', it, _, hit, hr'⟩ := mem_allRows_active rates u countries itemsOf r hr
    have hcc : r.country = c' := by rw [hr']; rfl
    rw [hcc] at hrc
    subst hrc
    rw [hempty] at hit
    exact absurd hit (List.not_mem_nil it)
  have hval : validCountryRows (allRows rates u Mode.Active countries itemsOf) c = [] := by
    unfold validCountryRows
    rw [List.filter_eq_nil_iff]
    intro r hr
    have hr2 : r ∈ allRows rates u Mode.Active countries itemsOf :=
      (List.mem_filter.mp hr).1
    simp [hnone r hr2]
  have hdash : dashEntry (allRows rates u Mode.Active countries itemsOf) c = "なし" := by
    unfold dashEntry
    rw [hval]
    rfl
  have hmem : (c, dashEntry (allRows rates u Mode.Active countries itemsOf) c)
      ∈ dashboard (allRows rates u Mode.Active countries itemsOf) countries :=
    List.mem_map_of_mem _ hc
  rwa [hdash] at hmem

/-- Country-to-items assignment for the C8 witness: only the US search
returns an item. -/
def itemsOfGBEmpty : String → List RawItem :=
  fun c => if c = "🇺🇸 アメリカ" then [itemUSD] else []

/-- C8 witness: with the US returning one item and the UK returning
none, Active mode gives the UK zero rows and the なし dashboard marker. -/
theorem active_empty_none_witness :
    normalizeCountry defaultRates 150 Mode.Active "🇬🇧 イギリス" (itemsOfGBEmpty "🇬🇧 イギリス") = []
    ∧ ("🇬🇧 イギリス", "なし") ∈ dashboard
        (allRows defaultRates 150 Mode.Active ["🇺🇸 アメリカ", "🇬🇧 イギリス"] itemsOfGBEmpty)
        ["🇺🇸 アメリカ", "🇬🇧 イギリス"] := by
  obtain ⟨h1, h2⟩ := active_empty_none defaultRates 150 ["🇺🇸 アメリカ", "🇬🇧 イギリス"]
    itemsOfGBEmpty "🇬🇧 イギリス" (by simp [itemsOfGBEmpty])
  exact ⟨h1, h2 (by simp)⟩

/-- Helper: the yen rendering of a zero total. -/
theorem yenFmt_zero : yenFmt 0 = "¥0" := by
  have h : truncQ (0 : ℚ) = 0 := by norm_num [truncQ]
  rw [yenFmt, h]
  rfl

/-- Concrete item with no price field and no shipping options. -/
def itemNoPrice : RawItem :=
  { title := none, itemWebUrl := none, url := none, price := none,
    shippingOptions := [], soldDate := none, itemEndDate := none }

/-- Concrete item with no price field but 10 units of shipping. -/
def itemNoPriceShip : RawItem :=
  { title := none, itemWebUrl := none, url := none, price := none,
    shippingOptions := [{ shippingCost := some 10 }],
    soldDate := none, itemEndDate := none }

/-- C10 counterexample: an item lacking a price field does not always
get sort key 0; with a 10 USD shipping cost the defaults (price 0,
currency USD) still yield a sort key of 10 * 150 = 1500. -/
theorem default_price_cex :
    (normalizeItem defaultRates 150 Mode.Active "🇺🇸 アメリカ" itemNoPriceShip).sortPrice ≠ 0 := by
  norm_num [normalizeItem, itemPriceOf, currencyOf, shippingOf, itemNoPriceShip]

/-- C10 amended: an item lacking a price field whose extracted shipping
cost is also 0 gets price 0 and currency USD, hence sort key exactly 0
and display total `¥0`, which passes the validity filter; when such an
item occurs among a country's Active-mode results and all of that
country's rows have nonnegative sort keys, the dashboard metric for the
country is `¥0`. -/
theorem default_price_row_min (rates : List (String × ℚ)) (u : ℚ)
    (countries : List String) (itemsOf : String → List RawItem) (c : String) (it : RawItem)
    (hp : it.price = none) (hs : shippingOf it = 0)
    (hc : c ∈ countries) (hit : it ∈ itemsOf c)
    (hnn : ∀ r ∈ allRows rates u Mode.Active countries itemsOf,
        r.country = c → 0 ≤ r.sortPrice) :
    (normalizeItem rates u Mode.Active c it).sortPrice = 0
    ∧ (normalizeItem rates u Mode.Active c it).totalDisplay = "¥0"
    ∧ (normalizeItem rates u Mode.Active c it).totalDisplay ≠ "-"
    ∧ dashEntry (allRows rates u Mode.Active countries itemsOf) c = "¥0" := by
  have hsort : (normalizeItem rates u Mode.Active c it).sortPrice = 0 := by
    simp [normalizeItem, itemPriceOf, currencyOf, hp, hs]
  have hdisp : (normalizeItem rates u Mode.Active c it).totalDisplay = "¥0" := by
    rw [totalDisplay_eq_yenFmt, hsort, yenFmt_zero]
  have hne : (normalizeItem rates u Mode.Active c it).totalDisplay ≠ "-" := by
    rw [hdisp]
    decide
  have hrowmem : normalizeItem rates u Mode.Active c it
      ∈ allRows rates u Mode.Active countries itemsOf := by
    unfold allRows
    rw [List.mem_flatMap]
    exact ⟨c, hc, by rw [normalizeCountry_active]; exact List.mem_map_of_mem _ hit⟩
  have hvmem : normalizeItem rates u Mode.Active c it
      ∈ validCountryRows (allRows rates u Mode.Active countries itemsOf) c := by
    unfold validCountryRows
    rw [List.mem_filter]
    refine ⟨?_, ?_⟩
    · rw [List.mem_filter]
      refine ⟨hrowmem, ?_⟩
      rw [show (normalizeItem rates u Mode.Active c it).totalDisplay = "¥0" from hdisp]
      decide
    · have hcy : (normalizeItem rates u Mode.Active c it).country = c := rfl
      rw [hcy]
      simp
  have hvne : validCountryRows (allRows rates u Mode.Active countries itemsOf) c ≠ [] :=
    List.ne_nil_of_mem hvmem
  obtain ⟨i, hi, hspec, hmin, _⟩ :=
    argminFirst_spec (validCountryRows (allRows rates u Mode.Active countries itemsOf) c) hvne
  have hd : dashEntry (allRows rates u Mode.Active countries itemsOf) c
      = ((validCountryRows (allRows rates u Mode.Active countries itemsOf) c).get ⟨i, hi⟩).totalDisplay := by
    simp [dashEntry, hspec]
  obtain ⟨n, hn⟩ := List.mem_iff_get.mp hvmem
  have hble : ((validCountryRows (allRows rates u Mode.Active countries itemsOf) c).get ⟨i, hi⟩).sortPrice ≤ 0 := by
    have := hmin n.1 n.2
    rw [show (validCountryRows (allRows rates u Mode.Active countries itemsOf) c).get ⟨n.1, n.2⟩
        = (validCountryRows (allRows rates u Mode.Active countries itemsOf) c).get n from rfl] at this
    rw [hn, hsort] at this
    exact this
  have hbmem : (validCountryRows (allRows rates u Mode.Active countries itemsOf) c).get ⟨i, hi⟩
      ∈ validCountryRows (allRows rates u Mode.Active countries itemsOf) c :=
    List.get_mem _ _ _
  have hbfilter := List.mem_filter.mp hbmem
  have hbAll : (validCountryRows (allRows rates u Mode.Active countries itemsOf) c).get ⟨i, hi⟩
      ∈ allRows rates u Mode.Active countries itemsOf :=
    (List.mem_filter.mp hbfilter.1).1
  have hbcountry : ((validCountryRows (allRows rates u Mode.Active countries itemsOf) c).get ⟨i, hi⟩).country = c := by
    have := hbfilter.2
    simpa using this
  have hbge : 0 ≤ ((validCountryRows (allRows rates u Mode.Active countries itemsOf) c).get ⟨i, hi⟩).sortPrice :=
    hnn _ hbAll hbcountry
  have hbz : ((validCountryRows (allRows rates u Mode.Active countries itemsOf) c).get ⟨i, hi⟩).sortPrice = 0 :=
    le_antisymm hble hbge
  obtain ⟨c', it', _, _, hb'⟩ :=
    mem_allRows_active rates u countries itemsOf _ hbAll
  have hbd : ((validCountryRows (allRows rates u Mode.Active countries itemsOf) c).get ⟨i, hi⟩).totalDisplay = "¥0" := by
    rw [hb', totalDisplay_eq_yenFmt, ← hb', hbz, yenFmt_zero]
  exact ⟨hsort, hdisp, hne, by rw [hd, hbd]⟩

/-- Country-to-items assignment for the C10 witness: every country
returns exactly the price-less item. -/
def itemsOfNoPrice : String → List RawItem :=
  fun _ => [itemNoPrice]

/-- C10 witness: a country whose only result lacks a price field shows
the ¥0 minimum on the dashboard. -/
theorem default_price_row_min_witness :
    (normalizeItem defaultRates 150 Mode.Active "🇺🇸 アメリカ" itemNoPrice).sortPrice = 0
    ∧ dashEntry (allRows defaultRates 150 Mode.Active ["🇺🇸 アメリカ"] itemsOfNoPrice)
        "🇺🇸 アメリカ" = "¥0" := by
  obtain ⟨h1, -, -, h4⟩ := default_price_row_min defaultRates 150 ["🇺🇸 アメリカ"]
    itemsOfNoPrice "🇺🇸 アメリカ" itemNoPrice rfl rfl (by simp) (by simp [itemsOfNoPrice])
    (by
      intro r hr hrc
      have hreq : r = normalizeItem defaultRates 150 Mode.Active "🇺🇸 アメリカ" itemNoPrice := by
        simpa [allRows, itemsOfNoPrice, normalizeCountry_active] using hr
      rw [hreq]
      norm_num [normalizeItem, itemPriceOf, currencyOf, shippingOf, itemNoPrice])
  exact ⟨h1, h4⟩

end DimpleMart
